import Mathlib

/-!
Verification of the brewd social-graph core (friendship state machine,
notification deduplication, feed assembly) against its specification.

The persisted data model is embedded from
`src/backend/db/migrations/000001_init_schema.up.sql`; each SQL query is
embedded from `src/backend/db/queries/analytics.sql`,
`src/backend/db/queries/notification.sql` and
`src/backend/db/queries/post.sql` as a pure function on an explicit store
(a table is a `List` of rows, in insertion order).  The application-level
wrappers that the SQL file comments and the spec prescribe (transaction
verification, error taxonomy, dedup orchestration) have no implementation
in the repository; those are modelled from the spec and are marked as such
in their doc comments.
-/

deriving instance DecidableEq for Except

namespace Brewd

/-- `status` column of `user_friendships`:
`CHECK (status IN ('pending', 'accepted', 'blocked'))`. -/
inductive FriendStatus
  | pending
  | accepted
  | blocked
deriving DecidableEq, Repr

/-- A row of `user_friendships` (migration lines 112-120):
`user_id`, `friend_id`, `status`, `PRIMARY KEY (user_id, friend_id)`,
`CHECK (user_id != friend_id)`.  The `created_at`/`updated_at` timestamp
columns are not read by any query under verification and are omitted. -/
structure FriendEdge where
  user_id : String
  friend_id : String
  status : FriendStatus
deriving DecidableEq, Repr

/-- Key test for the primary key `(user_id, friend_id)`. -/
def edgeKeyEq (a b : String) (e : FriendEdge) : Bool :=
  e.user_id == a && e.friend_id == b

/-- Store invariant induced by `PRIMARY KEY (user_id, friend_id)`:
no two rows share a key. -/
abbrev KeysNodup (fs : List FriendEdge) : Prop :=
  fs.Pairwise (fun e1 e2 => ¬(e1.user_id = e2.user_id ∧ e1.friend_id = e2.friend_id))

/-- Store invariant induced by `CONSTRAINT check_no_self_friendship
CHECK (user_id != friend_id)`. -/
abbrev NoSelfStore (fs : List FriendEdge) : Prop :=
  ∀ e ∈ fs, e.user_id ≠ e.friend_id

/-- No row with key `(a, b)` is present. -/
abbrev NoEdge (fs : List FriendEdge) (a b : String) : Prop :=
  ∀ e ∈ fs, ¬(e.user_id = a ∧ e.friend_id = b)

/-- Errors the database itself raises on a write. -/
inductive DBError
  | uniqueViolation
  | checkViolation
deriving DecidableEq, Repr

/-- Embeds `-- name: CheckFriendshipStatus :one` (analytics.sql):
`SELECT status FROM user_friendships WHERE user_id = $1 AND friend_id = $2`;
`none` models the empty result set. -/
def checkFriendshipStatus (fs : List FriendEdge) (a b : String) : Option FriendStatus :=
  (fs.find? (edgeKeyEq a b)).map (·.status)

/-- Embeds `-- name: SendFriendRequest :one` (analytics.sql):
`INSERT INTO user_friendships (user_id, friend_id, status) VALUES ($1, $2, 'pending')`.
The insert fails on the self-friendship CHECK constraint or on a primary-key
collision for `(user_id, friend_id)`. -/
def sendFriendRequest (fs : List FriendEdge) (user_id friend_id : String) :
    Except DBError (List FriendEdge) :=
  if user_id == friend_id then .error .checkViolation
  else if fs.any (edgeKeyEq user_id friend_id) then .error .uniqueViolation
  else .ok (fs ++ [⟨user_id, friend_id, .pending⟩])

/-- Embeds `-- name: AcceptFriendRequestUpdate :one` (analytics.sql):
`UPDATE user_friendships SET status = 'accepted' WHERE user_id = $1 AND
friend_id = $2 AND status = 'pending'`.  Returns the updated table together
with the number of affected rows. -/
def acceptFriendRequestUpdate (fs : List FriendEdge) (requester accepter : String) :
    List FriendEdge × Nat :=
  (fs.map (fun e =>
      if edgeKeyEq requester accepter e && (e.status == FriendStatus.pending)
      then { e with status := FriendStatus.accepted } else e),
   fs.countP (fun e => edgeKeyEq requester accepter e && (e.status == FriendStatus.pending)))

/-- Embeds `-- name: AcceptFriendRequestInsert :one` (analytics.sql):
`INSERT INTO user_friendships (user_id, friend_id, status) VALUES ($2, $1, 'accepted')`
with `$1` = requester, `$2` = accepter, so the inserted key is
`(accepter, requester)`. -/
def acceptFriendRequestInsert (fs : List FriendEdge) (requester accepter : String) :
    Except DBError (List FriendEdge) :=
  if accepter == requester then .error .checkViolation
  else if fs.any (edgeKeyEq accepter requester) then .error .uniqueViolation
  else .ok (fs ++ [⟨accepter, requester, .accepted⟩])

/-- Embeds `-- name: Unfriend :exec` (analytics.sql):
`DELETE FROM user_friendships WHERE (user_id = $1 AND friend_id = $2) OR
(user_id = $2 AND friend_id = $1)`.  Returns the remaining table together
with the number of deleted rows; note the WHERE clause has no status filter. -/
def unfriendDelete (fs : List FriendEdge) (a b : String) : List FriendEdge × Nat :=
  (fs.filter (fun e => !(edgeKeyEq a b e || edgeKeyEq b a e)),
   fs.countP (fun e => edgeKeyEq a b e || edgeKeyEq b a e))

/-- Embeds `-- name: BlockUser :one` (analytics.sql):
`INSERT INTO user_friendships (user_id, friend_id, status) VALUES ($1, $2, 'blocked')
ON CONFLICT (user_id, friend_id) DO UPDATE SET status = 'blocked'`.
`ON CONFLICT` absorbs only the primary-key collision; the self-friendship
CHECK constraint still rejects `blocker = blocked`. -/
def blockUser (fs : List FriendEdge) (blocker blocked : String) :
    Except DBError (List FriendEdge) :=
  if blocker == blocked then .error .checkViolation
  else if fs.any (edgeKeyEq blocker blocked) then
    .ok (fs.map (fun e =>
      if edgeKeyEq blocker blocked e then { e with status := FriendStatus.blocked } else e))
  else .ok (fs ++ [⟨blocker, blocked, FriendStatus.blocked⟩])

/-- The table state after `blockUser`: on a database error nothing is
committed and the table is unchanged. -/
def blockUserApply (fs : List FriendEdge) (blocker blocked : String) : List FriendEdge :=
  match blockUser fs blocker blocked with
  | .ok fs' => fs'
  | .error _ => fs

/-- Error taxonomy of the FriendshipGraph operations (spec section 7). -/
inductive FriendshipError
  | conflict
  | notFound
  | invariantViolation
deriving DecidableEq, Repr

/-- Modelled from the spec: the application-level `SendRequest` wrapper is not
under src/ (only the `SendFriendRequest` query and its comments are).  Spec
section 4.1: fails `Conflict` if any row already exists for
`(requester,recipient)` or `(recipient,requester)`; fails `InvariantViolation`
if `requester == recipient`; otherwise runs the `SendFriendRequest` insert. -/
def SendRequest (fs : List FriendEdge) (requester recipient : String) :
    Except FriendshipError (List FriendEdge) :=
  if requester == recipient then .error .invariantViolation
  else if fs.any (edgeKeyEq requester recipient) || fs.any (edgeKeyEq recipient requester) then
    .error .conflict
  else
    match sendFriendRequest fs requester recipient with
    | .ok fs' => .ok fs'
    | .error .uniqueViolation => .error .conflict
    | .error .checkViolation => .error .invariantViolation

/-- Modelled from the spec: the application-level `AcceptRequest` transaction
is not under src/ (only the two queries and the SQL comment prescribing the
transaction are).  Spec section 4.1: run `AcceptFriendRequestUpdate`; if it
affects zero rows abort with `NotFound` (the error return models the
rollback, so the caller keeps the untouched table); then run
`AcceptFriendRequestInsert`; a unique-key collision there is treated as
already satisfied and the call commits the update and returns success. -/
def AcceptRequest (fs : List FriendEdge) (requester accepter : String) :
    Except FriendshipError (List FriendEdge) :=
  let upd := acceptFriendRequestUpdate fs requester accepter
  if upd.2 == 0 then .error .notFound
  else
    match acceptFriendRequestInsert upd.1 requester accepter with
    | .ok fs' => .ok fs'
    | .error .uniqueViolation => .ok upd.1
    | .error .checkViolation => .error .invariantViolation

/-- Modelled from the spec: the application-level `Unfriend` transaction is
not under src/ (only the `Unfriend` DELETE and the SQL comment `Verify 2 rows
affected` are).  Spec section 4.1: run the delete inside a transaction and
verify exactly two rows were removed; otherwise the transaction aborts and
surfaces `InvariantViolation` (the error return models the rollback: zero
rows changed). -/
def UnfriendTx (fs : List FriendEdge) (a b : String) :
    Except FriendshipError (List FriendEdge) :=
  let d := unfriendDelete fs a b
  if d.2 == 2 then .ok d.1 else .error .invariantViolation

/-! ### Concrete identities and stores used in witnesses and counterexamples -/

def uA : String := "alice"

def uB : String := "bob"

def uC : String := "carol"

/-- Store for the C4 witness: a pending request from alice to bob next to a
stale reverse row, so the accept INSERT collides on the unique key. -/
def c4fs : List FriendEdge :=
  [⟨uA, uB, FriendStatus.pending⟩, ⟨uB, uA, FriendStatus.blocked⟩]

/-! ### Notifications
Data model from the `notification` table (migration lines 168-180) and the
queries of `src/backend/db/queries/notification.sql`. -/

/-- `type` column: `CHECK (type IN ('like','comment','friend_request','tag','follow'))`. -/
inductive NotifType
  | like
  | comment
  | friend_request
  | tag
  | follow
deriving DecidableEq, Repr

/-- A row of `notification`: id, recipient, actor, type, reference id and
type, read flag, creation time (modelled as seconds). -/
structure Notification where
  id : String
  recipient_user_id : String
  actor_user_id : String
  ntype : NotifType
  reference_id : String
  reference_type : String
  is_read : Bool
  created_at : Int
deriving DecidableEq, Repr

/-- Embeds `-- name: CreateNotification :one` (notification.sql):
`INSERT INTO notification (id, recipient_user_id, actor_user_id, type,
reference_id, reference_type) VALUES ($1,...,$6)`; `is_read` defaults to
false and `created_at` to now. -/
def createNotification (ns : List Notification) (id recipient actor : String)
    (t : NotifType) (refId refType : String) (now : Int) : List Notification :=
  ns ++ [⟨id, recipient, actor, t, refId, refType, false, now⟩]

/-- The dedup key `(recipient, actor, type, reference_id)`. -/
def notifMatches (recipient actor : String) (t : NotifType) (refId : String)
    (n : Notification) : Bool :=
  n.recipient_user_id == recipient && n.actor_user_id == actor &&
    n.ntype == t && n.reference_id == refId

/-- Embeds `-- name: CheckForDuplicateNotification :one` (notification.sql):
`SELECT EXISTS (... WHERE recipient_user_id = $1 AND actor_user_id = $2 AND
type = $3 AND reference_id = $4 AND created_at > NOW() - INTERVAL '1 hour' * $5)`,
with times in seconds so the window is `hours * 3600`. -/
def checkForDuplicateNotification (ns : List Notification) (recipient actor : String)
    (t : NotifType) (refId : String) (hours now : Int) : Bool :=
  ns.any (fun n => notifMatches recipient actor t refId n &&
    decide (now - hours * 3600 < n.created_at))

/-- Outcome of `Notify` (spec section 4.2): `DuplicateSuppressed` is a
non-error no-op. -/
inductive NotifyOutcome
  | created
  | duplicateSuppressed
deriving DecidableEq, Repr

/-- Modelled from the spec: the `NotificationDispatcher.Notify` wrapper is
not under src/ (only the two queries are).  Spec section 4.2: check for an
existing notification with the same `(recipient, actor, type, referenceId)`
within the dedup window; if found the call is a no-op returning
`DuplicateSuppressed`; otherwise insert a new unread row. -/
def Notify (ns : List Notification) (id recipient actor : String) (t : NotifType)
    (refId refType : String) (hours now : Int) : NotifyOutcome × List Notification :=
  if checkForDuplicateNotification ns recipient actor t refId hours now then
    (.duplicateSuppressed, ns)
  else
    (.created, createNotification ns id recipient actor t refId refType now)

/-- Notification ids and reference used by the C7 witness. -/
def nid1 : String := "n1"

def nid2 : String := "n2"

def refP : String := "post1"

/-! ### Feed assembly
Data model from the `post`, `user`, `post_likes` and `comment` tables and
the `GetUserFeed` query of `src/backend/db/queries/post.sql`. -/

/-- `visibility` column of `post`:
`CHECK (visibility IN ('public', 'friends', 'private'))`; `priv` models
the value `'private'` (a reserved word in Lean). -/
inductive Visibility
  | public
  | friends
  | priv
deriving DecidableEq, Repr

/-- A row of `post` (migration lines 57-67); `title`, `description`,
`rating` and `brew_id` are opaque payload never used by the verified logic
and are omitted. -/
structure Post where
  id : String
  owner_id : String
  visibility : Visibility
  created_at : Int
deriving DecidableEq, Repr

/-- A row of `"user"`, restricted to the columns the verified queries read. -/
structure UserRow where
  id : String
  username : String
  profile_picture_url : String
deriving DecidableEq, Repr

/-- A row of `post_likes`: `PRIMARY KEY (post_id, user_id)`. -/
structure PostLike where
  post_id : String
  user_id : String
deriving DecidableEq, Repr

/-- A row of `comment`, restricted to the columns the feed query reads. -/
structure CommentRow where
  id : String
  post_id : String
deriving DecidableEq, Repr

/-- The relational store seen by the feed and mutual-friends queries. -/
structure DB where
  users : List UserRow
  posts : List Post
  post_likes : List PostLike
  comments : List CommentRow
  friendships : List FriendEdge
deriving Repr

/-- The FROM/WHERE part of `GetUserFeed`: the post joins a friendship row
`f` with `f.user_id = $1 AND f.friend_id = p.owner_id AND
f.status = 'accepted'`, joins its author row in `"user"`, and satisfies
`p.visibility IN ('public', 'friends')`. -/
def postVisibleInFeed (db : DB) (uid : String) (p : Post) : Bool :=
  db.friendships.any (fun f =>
      f.user_id == uid && f.friend_id == p.owner_id && f.status == FriendStatus.accepted)
    && db.users.any (fun u => u.id == p.owner_id)
    && (p.visibility == Visibility.public || p.visibility == Visibility.friends)

/-- `ORDER BY p.created_at DESC` as a relation on posts; the SQL names no
further sort key, so the embedding resolves ties stably (table order). -/
abbrev createdAtDesc (p q : Post) : Prop := q.created_at ≤ p.created_at

instance : IsTotal Post createdAtDesc := ⟨fun p q => le_total q.created_at p.created_at⟩

instance : IsTrans Post createdAtDesc := ⟨fun _ _ _ h1 h2 => le_trans h2 h1⟩

/-- `COUNT(DISTINCT pl.user_id)` for one post group. -/
def likeCount (db : DB) (p : Post) : Nat :=
  ((db.post_likes.filter (fun pl => pl.post_id == p.id)).map PostLike.user_id).dedup.length

/-- `COUNT(DISTINCT c.id)` for one post group. -/
def commentCount (db : DB) (p : Post) : Nat :=
  ((db.comments.filter (fun c => c.post_id == p.id)).map CommentRow.id).dedup.length

/-- `EXISTS(SELECT 1 FROM post_likes pl2 WHERE pl2.post_id = p.id AND
pl2.user_id = $1)`. -/
def likedByCurrentUser (db : DB) (uid : String) (p : Post) : Bool :=
  db.post_likes.any (fun pl => pl.post_id == p.id && pl.user_id == uid)

/-- One result row of `GetUserFeed`, restricted to the claim-relevant
columns of its SELECT list. -/
structure FeedRow where
  id : String
  owner_id : String
  created_at : Int
  like_count : Nat
  comment_count : Nat
  liked_by_current_user : Bool
deriving DecidableEq, Repr

/-- The SELECT list of `GetUserFeed` for one surviving post. -/
def feedRow (db : DB) (uid : String) (p : Post) : FeedRow :=
  ⟨p.id, p.owner_id, p.created_at, likeCount db p, commentCount db p,
    likedByCurrentUser db uid p⟩

/-- Embeds `-- name: GetUserFeed :many` (post.sql lines 61-90): filter by
friendship and visibility, group per post with distinct like/comment
counts, `ORDER BY p.created_at DESC`, then `LIMIT $2 OFFSET $3`. -/
def getUserFeed (db : DB) (uid : String) (lim off : Nat) : List FeedRow :=
  ((((db.posts.filter (postVisibleInFeed db uid)).insertionSort createdAtDesc).drop
    off).take lim).map (feedRow db uid)

/-- Lexicographic order on id strings (character by character), standing in
for the text ordering a SQL id tie-break would use. -/
def idLt (s1 s2 : String) : Prop := s1.data < s2.data

instance : DecidableRel idLt := fun s1 s2 => inferInstanceAs (Decidable (s1.data < s2.data))

/-- The ordering C6 claims (`created_at` descending, ties broken by
ascending post id). -/
def feedOrdIdAsc (r1 r2 : FeedRow) : Prop :=
  r2.created_at < r1.created_at ∨ (r1.created_at = r2.created_at ∧ idLt r1.id r2.id)

instance : DecidableRel feedOrdIdAsc := fun _ _ =>
  inferInstanceAs (Decidable (_ ∨ _))

/-- The same claimed ordering with the id tie-break read descending. -/
def feedOrdIdDesc (r1 r2 : FeedRow) : Prop :=
  r2.created_at < r1.created_at ∨ (r1.created_at = r2.created_at ∧ idLt r2.id r1.id)

instance : DecidableRel feedOrdIdDesc := fun _ _ =>
  inferInstanceAs (Decidable (_ ∨ _))

/-- `created_at` non-increasing on result rows — the ordering the SQL
actually guarantees. -/
abbrev feedCreatedDesc (r1 r2 : FeedRow) : Prop := r2.created_at ≤ r1.created_at

/-- Concrete feed store: carol is alice's accepted friend and authored
three posts with identical `created_at`, stored in neither ascending nor
descending id order. -/
def feedDB : DB :=
  ⟨[⟨uC, "carol", ""⟩, ⟨uA, "alice", ""⟩],
   [⟨"pb", uC, Visibility.public, 100⟩, ⟨"pc", uC, Visibility.friends, 100⟩,
    ⟨"pa", uC, Visibility.friends, 100⟩],
   [],
   [],
   [⟨uA, uC, FriendStatus.accepted⟩, ⟨uC, uA, FriendStatus.accepted⟩]⟩

/-! ### Mutual friends -/

/-- `ORDER BY u.username` as a relation on user rows. -/
abbrev usernameLe (u1 u2 : UserRow) : Prop := u1.username ≤ u2.username

/-- The inner `IN` subquery of `GetMutualFriends`: a candidate id is a
friend of both `$1 = a` and `$2 = b` through accepted rows. -/
def mutualFriendIds (fs : List FriendEdge) (a b uid : String) : Bool :=
  fs.any (fun f1 => f1.user_id == a && f1.friend_id == uid &&
      f1.status == FriendStatus.accepted)
    && fs.any (fun f2 => f2.user_id == b && f2.friend_id == uid &&
      f2.status == FriendStatus.accepted)

/-- Embeds `-- name: GetMutualFriends :many` (analytics.sql lines 529-542):
users whose id lies in both accepted adjacency sets, `ORDER BY u.username`. -/
def getMutualFriends (db : DB) (a b : String) : List UserRow :=
  (db.users.filter (fun u => mutualFriendIds db.friendships a b u.id)).insertionSort
    usernameLe

/-! ### Basic lemmas on the friendship store -/

/-- A found edge under key `(a,b)` with unique keys determines the status. -/
theorem checkFriendshipStatus_of_mem (fs : List FriendEdge) (e : FriendEdge)
    (ha : e.user_id = a) (hb : e.friend_id = b) :
    KeysNodup fs → e ∈ fs → checkFriendshipStatus fs a b = some e.status := by
  induction fs with
  | nil => intro _ hm; cases hm
  | cons h t ih =>
    intro hnd hm
    rcases List.mem_cons.mp hm with hm | hm
    · subst hm
      simp [checkFriendshipStatus, List.find?, edgeKeyEq, ha, hb]
    · have hkey : ¬(h.user_id = e.user_id ∧ h.friend_id = e.friend_id) :=
        (List.pairwise_cons.mp hnd).1 e hm
      have hne : edgeKeyEq a b h = false := by
        simp only [edgeKeyEq, Bool.and_eq_false_iff, beq_eq_false_iff_ne]
        by_cases hu : h.user_id = a
        · right
          intro hf
          exact hkey ⟨hu.trans ha.symm, hf.trans hb.symm⟩
        · left; exact hu
      have ht := ih (List.pairwise_cons.mp hnd).2 hm
      simpa [checkFriendshipStatus, List.find?, hne] using ht

/-- If no row carries key `(a,b)`, the status reads back as `none`. -/
theorem checkFriendshipStatus_eq_none (fs : List FriendEdge)
    (h : NoEdge fs a b) : checkFriendshipStatus fs a b = none := by
  have : fs.find? (edgeKeyEq a b) = none := by
    rw [List.find?_eq_none]
    intro e he
    simp only [edgeKeyEq, Bool.and_eq_true, beq_iff_eq]
    intro hc
    exact h e he ⟨hc.1, hc.2⟩
  simp [checkFriendshipStatus, this]

/-- `List.any` over the key predicate is false exactly when no row has the key. -/
theorem any_edgeKeyEq_false {fs : List FriendEdge} {a b : String}
    (h : NoEdge fs a b) : fs.any (edgeKeyEq a b) = false := by
  rw [List.any_eq_false]
  intro e he
  simp only [edgeKeyEq, Bool.and_eq_true, beq_iff_eq]
  intro hc
  exact h e he ⟨hc.1, hc.2⟩

/-- `find?` skips a prefix on which the predicate is everywhere false. -/
theorem find?_append_left_none {α : Type} {p : α → Bool} {l1 l2 : List α}
    (h : ∀ x ∈ l1, p x = false) : (l1 ++ l2).find? p = l2.find? p := by
  induction l1 with
  | nil => rfl
  | cons x t ih =>
    have hx := h x (List.mem_cons_self x t)
    simp only [List.cons_append, List.find?, hx]
    exact ih fun y hy => h y (List.mem_cons_of_mem x hy)

/-- On a fresh pair, `SendRequest` commits the single `pending` row. -/
theorem sendRequest_ok {fs : List FriendEdge} {a b : String}
    (hab : a ≠ b) (h1 : NoEdge fs a b) (h2 : NoEdge fs b a) :
    SendRequest fs a b = .ok (fs ++ [⟨a, b, FriendStatus.pending⟩]) := by
  simp [SendRequest, sendFriendRequest, hab, any_edgeKeyEq_false h1, any_edgeKeyEq_false h2]

/-- An edge that does not carry key `(a,b)` fails the key test. -/
theorem edgeKeyEq_false_of_not {e : FriendEdge} {a b : String}
    (h : ¬(e.user_id = a ∧ e.friend_id = b)) : edgeKeyEq a b e = false := by
  simp only [edgeKeyEq, Bool.and_eq_false_iff, beq_eq_false_iff_ne]
  by_cases hu : e.user_id = a
  · right; intro hf; exact h ⟨hu, hf⟩
  · left; exact hu

/-- The accept UPDATE leaves a table without `(a,b)`-keyed rows unchanged. -/
theorem map_accept_eq_self {a b : String} : ∀ {fs : List FriendEdge}, NoEdge fs a b →
    fs.map (fun e =>
      if edgeKeyEq a b e && (e.status == FriendStatus.pending)
      then { e with status := FriendStatus.accepted } else e) = fs := by
  intro fs
  induction fs with
  | nil => intro _; rfl
  | cons e t ih =>
    intro h
    have he : edgeKeyEq a b e = false := edgeKeyEq_false_of_not (h e (List.mem_cons_self e t))
    have ht := ih fun x hx hc => h x (List.mem_cons_of_mem e hx) hc
    have hc : (edgeKeyEq a b e && (e.status == FriendStatus.pending)) = false := by
      simp [he]
    rw [List.map_cons, ht]
    simp [hc]

/-- The accept UPDATE touches no row of a table without `(a,b)`-keyed rows. -/
theorem countP_accept_eq_zero {a b : String} {fs : List FriendEdge} (h : NoEdge fs a b) :
    fs.countP (fun e => edgeKeyEq a b e && (e.status == FriendStatus.pending)) = 0 := by
  rw [List.countP_eq_zero]
  intro e he
  have hkey : edgeKeyEq a b e = false := edgeKeyEq_false_of_not (h e he)
  simp [hkey]

/-- The accept UPDATE on a table whose only `(a,b)`-keyed row is the appended
pending row flips exactly that row and reports one affected row. -/
theorem acceptUpdate_fresh {fs : List FriendEdge} {a b : String}
    (h1 : NoEdge fs a b) :
    acceptFriendRequestUpdate (fs ++ [⟨a, b, FriendStatus.pending⟩]) a b =
      (fs ++ [⟨a, b, FriendStatus.accepted⟩], 1) := by
  unfold acceptFriendRequestUpdate
  rw [Prod.mk.injEq]
  constructor
  · rw [List.map_append, map_accept_eq_self h1]
    simp [edgeKeyEq]
  · rw [List.countP_append, countP_accept_eq_zero h1]
    simp [edgeKeyEq]

/-- On a fresh pair holding only the pending request, `AcceptRequest` commits
the update and the reverse insert. -/
theorem acceptRequest_ok_fresh {fs : List FriendEdge} {a b : String}
    (hab : a ≠ b) (h1 : NoEdge fs a b) (h2 : NoEdge fs b a) :
    AcceptRequest (fs ++ [⟨a, b, FriendStatus.pending⟩]) a b =
      .ok ((fs ++ [⟨a, b, FriendStatus.accepted⟩]) ++ [⟨b, a, FriendStatus.accepted⟩]) := by
  have hupd := @acceptUpdate_fresh fs a b h1
  have hba : (b == a) = false := beq_eq_false_iff_ne.mpr fun h => hab h.symm
  have hrow : edgeKeyEq b a (⟨a, b, FriendStatus.accepted⟩ : FriendEdge) = false := by
    have : ¬((⟨a, b, FriendStatus.accepted⟩ : FriendEdge).user_id = b ∧
        (⟨a, b, FriendStatus.accepted⟩ : FriendEdge).friend_id = a) := by
      intro hc
      exact hab hc.1
    exact edgeKeyEq_false_of_not this
  have hany : ((fs ++ [(⟨a, b, FriendStatus.accepted⟩ : FriendEdge)]).any (edgeKeyEq b a)) = false := by
    rw [List.any_append, any_edgeKeyEq_false h2]
    simp [hrow]
  have hins : acceptFriendRequestInsert (fs ++ [⟨a, b, FriendStatus.accepted⟩]) a b =
      .ok ((fs ++ [⟨a, b, FriendStatus.accepted⟩]) ++ [⟨b, a, FriendStatus.accepted⟩]) := by
    simp only [acceptFriendRequestInsert, hba, hany, Bool.false_eq_true, if_false]
  simp [AcceptRequest, hupd, hins]

/-- A row with key `(a,b)` present means `NoEdge` fails. -/
theorem any_edgeKeyEq_iff {fs : List FriendEdge} {a b : String} :
    fs.any (edgeKeyEq a b) = true ↔ ¬ NoEdge fs a b := by
  constructor
  · intro h hno
    rw [any_edgeKeyEq_false hno] at h
    cases h
  · intro h
    by_contra hfalse
    have hv : fs.any (edgeKeyEq a b) = false := by
      cases hv : fs.any (edgeKeyEq a b)
      · rfl
      · exact absurd hv hfalse
    apply h
    intro e he hc
    rw [List.any_eq_false] at hv
    exact hv e he (by simp [edgeKeyEq, hc.1, hc.2])

/-! ### Claim theorems on the friendship state machine -/

/-- After the `Unfriend` DELETE no row of either key survives. -/
theorem unfriendDelete_noEdge (fs : List FriendEdge) (a b : String) :
    NoEdge (unfriendDelete fs a b).1 a b ∧ NoEdge (unfriendDelete fs a b).1 b a := by
  constructor
  · intro e he hc
    have hm := List.mem_filter.mp he
    have hk : edgeKeyEq a b e = true := by simp [edgeKeyEq, hc.1, hc.2]
    simp [unfriendDelete, hk] at hm
  · intro e he hc
    have hm := List.mem_filter.mp he
    have hk : edgeKeyEq b a e = true := by simp [edgeKeyEq, hc.1, hc.2]
    simp [unfriendDelete, hk] at hm

/-- C9: the `Unfriend` DELETE filters only on the pair of keys, not on
status, so after it runs both `CheckFriendshipStatus` directions read back
as no relationship — whatever the prior state (accepted rows, a pending
request in either direction, or a one-directional block). -/
theorem c9_unfriendDelete_clears_both_directions (fs : List FriendEdge) (a b : String) :
    checkFriendshipStatus (unfriendDelete fs a b).1 a b = none ∧
    checkFriendshipStatus (unfriendDelete fs a b).1 b a = none :=
  ⟨checkFriendshipStatus_eq_none _ (unfriendDelete_noEdge fs a b).1,
   checkFriendshipStatus_eq_none _ (unfriendDelete_noEdge fs a b).2⟩

/-- C3: `SendRequest(a,b)` fails `InvariantViolation` when `a = b`, fails
`Conflict` when a row already exists in either direction, and otherwise
inserts exactly the single row `(a, b, pending)`. -/
theorem c3_sendRequest_cases (fs : List FriendEdge) (a b : String) :
    (a = b → SendRequest fs a b = .error .invariantViolation) ∧
    (a ≠ b → (¬ NoEdge fs a b ∨ ¬ NoEdge fs b a) → SendRequest fs a b = .error .conflict) ∧
    (a ≠ b → NoEdge fs a b → NoEdge fs b a →
      SendRequest fs a b = .ok (fs ++ [⟨a, b, FriendStatus.pending⟩])) := by
  refine ⟨fun h => by simp [SendRequest, h], fun hab hne => ?_, fun hab h1 h2 => sendRequest_ok hab h1 h2⟩
  have hq : (fs.any (edgeKeyEq a b) || fs.any (edgeKeyEq b a)) = true := by
    rcases hne with h | h
    · rw [any_edgeKeyEq_iff.mpr h]
      simp
    · rw [any_edgeKeyEq_iff.mpr h]
      simp
  simp [SendRequest, hab, hq]

/-- Witness for C3 at concrete inputs: a pending row `(alice, bob)` makes a
repeat request conflict, and the reverse request conflicts too. -/
theorem c3_sendRequest_cases_witness :
    uA ≠ uB ∧ ¬ NoEdge [(⟨uA, uB, FriendStatus.pending⟩ : FriendEdge)] uA uB ∧
    SendRequest [(⟨uA, uB, FriendStatus.pending⟩ : FriendEdge)] uA uB = .error .conflict :=
  ⟨by decide, by decide,
    (c3_sendRequest_cases [⟨uA, uB, FriendStatus.pending⟩] uA uB).2.1 (by decide)
      (Or.inl (by decide))⟩

/-- C1: on a store with no edge between distinct `a` and `b`,
`SendRequest(a,b)` then `AcceptRequest(a,b)` leaves both `(a,b,accepted)`
and `(b,a,accepted)` present and both status reads return `accepted`. -/
theorem c1_sendRequest_then_acceptRequest (fs : List FriendEdge) (a b : String)
    (hab : a ≠ b) (h1 : NoEdge fs a b) (h2 : NoEdge fs b a) :
    SendRequest fs a b = .ok (fs ++ [⟨a, b, FriendStatus.pending⟩]) ∧
    AcceptRequest (fs ++ [⟨a, b, FriendStatus.pending⟩]) a b =
      .ok ((fs ++ [⟨a, b, FriendStatus.accepted⟩]) ++ [⟨b, a, FriendStatus.accepted⟩]) ∧
    (⟨a, b, FriendStatus.accepted⟩ : FriendEdge) ∈
      ((fs ++ [⟨a, b, FriendStatus.accepted⟩]) ++ [⟨b, a, FriendStatus.accepted⟩]) ∧
    (⟨b, a, FriendStatus.accepted⟩ : FriendEdge) ∈
      ((fs ++ [⟨a, b, FriendStatus.accepted⟩]) ++ [⟨b, a, FriendStatus.accepted⟩]) ∧
    checkFriendshipStatus
      ((fs ++ [⟨a, b, FriendStatus.accepted⟩]) ++ [⟨b, a, FriendStatus.accepted⟩]) a b =
      some FriendStatus.accepted ∧
    checkFriendshipStatus
      ((fs ++ [⟨a, b, FriendStatus.accepted⟩]) ++ [⟨b, a, FriendStatus.accepted⟩]) b a =
      some FriendStatus.accepted := by
  have hfs1 : ∀ x ∈ fs, edgeKeyEq a b x = false :=
    fun x hx => edgeKeyEq_false_of_not (h1 x hx)
  have hstat1 : checkFriendshipStatus
      ((fs ++ [⟨a, b, FriendStatus.accepted⟩]) ++ [⟨b, a, FriendStatus.accepted⟩]) a b =
      some FriendStatus.accepted := by
    unfold checkFriendshipStatus
    rw [List.append_assoc, find?_append_left_none hfs1]
    simp [List.find?, edgeKeyEq]
  have hfs2 : ∀ x ∈ fs ++ [(⟨a, b, FriendStatus.accepted⟩ : FriendEdge)],
      edgeKeyEq b a x = false := by
    intro x hx
    rcases List.mem_append.mp hx with hx | hx
    · exact edgeKeyEq_false_of_not (h2 x hx)
    · rcases List.mem_singleton.mp hx with rfl
      exact edgeKeyEq_false_of_not fun hc => hab hc.1
  have hstat2 : checkFriendshipStatus
      ((fs ++ [⟨a, b, FriendStatus.accepted⟩]) ++ [⟨b, a, FriendStatus.accepted⟩]) b a =
      some FriendStatus.accepted := by
    unfold checkFriendshipStatus
    rw [find?_append_left_none hfs2]
    simp [List.find?, edgeKeyEq]
  exact ⟨sendRequest_ok hab h1 h2, acceptRequest_ok_fresh hab h1 h2,
    by simp, by simp, hstat1, hstat2⟩

/-- With unique keys, a lone `(a,b)` row and no `(b,a)` row, the `Unfriend`
DELETE affects exactly one row. -/
theorem countP_pair_one {a b : String} :
    ∀ {fs : List FriendEdge}, KeysNodup fs → NoEdge fs b a →
      ∀ e ∈ fs, e.user_id = a → e.friend_id = b →
      fs.countP (fun x => edgeKeyEq a b x || edgeKeyEq b a x) = 1 := by
  intro fs
  induction fs with
  | nil => intro _ _ e he; cases he
  | cons h t ih =>
    intro hnd hno e he hu hf
    have hpc := List.pairwise_cons.mp hnd
    rcases List.mem_cons.mp he with rfl | he'
    · have hkey : edgeKeyEq a b e = true := by simp [edgeKeyEq, hu, hf]
      have hz : t.countP (fun x => edgeKeyEq a b x || edgeKeyEq b a x) = 0 := by
        rw [List.countP_eq_zero]
        intro x hx
        have h1 : edgeKeyEq a b x = false := edgeKeyEq_false_of_not fun hc =>
          hpc.1 x hx ⟨hu.trans hc.1.symm, hf.trans hc.2.symm⟩
        have h2 : edgeKeyEq b a x = false := edgeKeyEq_false_of_not fun hc =>
          hno x (List.mem_cons_of_mem e hx) hc
        simp [h1, h2]
      rw [List.countP_cons_of_pos _ _ (by simp [hkey]), hz]
    · have hh1 : edgeKeyEq a b h = false := edgeKeyEq_false_of_not fun hc =>
        hpc.1 e he' ⟨hc.1.trans hu.symm, hc.2.trans hf.symm⟩
      have hh2 : edgeKeyEq b a h = false := edgeKeyEq_false_of_not fun hc =>
        hno h (List.mem_cons_self h t) hc
      rw [List.countP_cons_of_neg _ _ (by simp [hh1, hh2])]
      exact ih hpc.2 (fun x hx => hno x (List.mem_cons_of_mem h hx)) e he' hu hf

/-- Counterexample to C2 as stated: in the inconsistent store
`[(alice,bob,accepted), (bob,alice,pending)]` exactly one of the two
accepted rows exists, yet the transactional unfriend deletes two rows and
commits instead of aborting with `InvariantViolation`. -/
theorem c2_unfriend_counterexample :
    checkFriendshipStatus [(⟨uA, uB, FriendStatus.accepted⟩ : FriendEdge),
        ⟨uB, uA, FriendStatus.pending⟩] uA uB = some FriendStatus.accepted ∧
    checkFriendshipStatus [(⟨uA, uB, FriendStatus.accepted⟩ : FriendEdge),
        ⟨uB, uA, FriendStatus.pending⟩] uB uA ≠ some FriendStatus.accepted ∧
    UnfriendTx [(⟨uA, uB, FriendStatus.accepted⟩ : FriendEdge),
        ⟨uB, uA, FriendStatus.pending⟩] uA uB = .ok [] := by decide

/-- C2 amended: `Unfriend(a,b)` either commits — and then both status reads
return `none` — or aborts with `InvariantViolation` whenever the DELETE did
not affect exactly two rows (the error return models the rolled-back
transaction: zero net rows changed); in particular it aborts when exactly
one lone accepted row `(a,b,accepted)` exists and the reverse direction has
no row at all. -/
theorem c2_unfriendTx_amended (fs : List FriendEdge) (a b : String) (hnd : KeysNodup fs) :
    (∀ fs', UnfriendTx fs a b = .ok fs' →
      checkFriendshipStatus fs' a b = none ∧ checkFriendshipStatus fs' b a = none) ∧
    ((unfriendDelete fs a b).2 ≠ 2 → UnfriendTx fs a b = .error .invariantViolation) ∧
    ((⟨a, b, FriendStatus.accepted⟩ : FriendEdge) ∈ fs → NoEdge fs b a →
      UnfriendTx fs a b = .error .invariantViolation) := by
  refine ⟨?_, ?_, ?_⟩
  · intro fs' hok
    unfold UnfriendTx at hok
    by_cases hc : ((unfriendDelete fs a b).2 == 2) = true
    · rw [if_pos hc] at hok
      injection hok with hok
      subst hok
      exact ⟨checkFriendshipStatus_eq_none _ (unfriendDelete_noEdge fs a b).1,
        checkFriendshipStatus_eq_none _ (unfriendDelete_noEdge fs a b).2⟩
    · rw [if_neg hc] at hok
      cases hok
  · intro hne
    have hc : ((unfriendDelete fs a b).2 == 2) = false := beq_eq_false_iff_ne.mpr hne
    simp [UnfriendTx, hc]
  · intro hm hno
    have hcount : (unfriendDelete fs a b).2 = 1 :=
      countP_pair_one hnd hno _ hm rfl rfl
    have hc : ((unfriendDelete fs a b).2 == 2) = false := by
      rw [hcount]; rfl
    simp [UnfriendTx, hc]

/-- Witness for the amended C2 at concrete inputs: a lone accepted row with
no reverse row makes the transactional unfriend abort. -/
theorem c2_unfriendTx_amended_witness :
    KeysNodup [(⟨uA, uB, FriendStatus.accepted⟩ : FriendEdge)] ∧
    UnfriendTx [(⟨uA, uB, FriendStatus.accepted⟩ : FriendEdge)] uA uB =
      .error .invariantViolation :=
  ⟨by decide,
    (c2_unfriendTx_amended [⟨uA, uB, FriendStatus.accepted⟩] uA uB (by decide)).2.2
      (by simp) (by decide)⟩

/-- `find?` ignores a trailing element on which the predicate is false. -/
theorem find?_append_single_false {α : Type} {p : α → Bool} {l : List α} {x : α}
    (hx : p x = false) : (l ++ [x]).find? p = l.find? p := by
  induction l with
  | nil => simp [List.find?, hx]
  | cons h t ih =>
    simp only [List.cons_append, List.find?_cons]
    cases p h <;> simp [ih]

/-- The `BlockUser` conflict-update branch does not move or alter rows of
any other key, as seen by `find?` under a different key. -/
theorem find?_map_block {a b c d : String} (h : ¬(c = a ∧ d = b)) :
    ∀ fs : List FriendEdge,
      (fs.map (fun e =>
        if edgeKeyEq a b e then { e with status := FriendStatus.blocked } else e)).find?
          (edgeKeyEq c d) = fs.find? (edgeKeyEq c d) := by
  intro fs
  induction fs with
  | nil => rfl
  | cons e t ih =>
    by_cases hk : edgeKeyEq a b e = true
    · have hcd : edgeKeyEq c d e = false := by
        have hk' := hk
        simp only [edgeKeyEq, Bool.and_eq_true, beq_iff_eq] at hk'
        exact edgeKeyEq_false_of_not fun hc => h ⟨hc.1.symm.trans hk'.1, hc.2.symm.trans hk'.2⟩
      have hcd' : edgeKeyEq c d { e with status := FriendStatus.blocked } = false := hcd
      simp only [List.map_cons, hk, if_true, List.find?_cons, hcd, hcd']
      exact ih
    · have hk' : edgeKeyEq a b e = false := by
        cases hv : edgeKeyEq a b e
        · rfl
        · exact absurd hv hk
      simp only [List.map_cons, hk', Bool.false_eq_true, if_false, List.find?_cons]
      cases edgeKeyEq c d e <;> simp [ih]

/-- The `BlockUser` conflict-update branch preserves the complement of the
blocked key, row for row. -/
theorem filter_map_block {a b : String} :
    ∀ fs : List FriendEdge,
      (fs.map (fun e =>
        if edgeKeyEq a b e then { e with status := FriendStatus.blocked } else e)).filter
          (fun e => !(edgeKeyEq a b e)) = fs.filter (fun e => !(edgeKeyEq a b e)) := by
  intro fs
  induction fs with
  | nil => rfl
  | cons e t ih =>
    by_cases hk : edgeKeyEq a b e = true
    · have hk2 : edgeKeyEq a b { e with status := FriendStatus.blocked } = true := hk
      simp only [List.map_cons, hk, if_true, List.filter_cons, hk2, Bool.not_true]
      simpa using ih
    · have hk' : edgeKeyEq a b e = false := by
        cases hv : edgeKeyEq a b e
        · rfl
        · exact absurd hv hk
      simp only [List.map_cons, hk', Bool.false_eq_true, if_false, List.filter_cons,
        Bool.not_false]
      simp [ih]

/-- C8: `Block(a,b)` upserts only the `(a,b)` row: the reverse status
`Status(b,a)` reads the same before and after, every row keyed other than
`(a,b)` is untouched, and for distinct users the `(a,b)` row afterwards
carries status `blocked`. -/
theorem c8_blockUser_upserts_only_forward (fs : List FriendEdge) (a b : String) :
    checkFriendshipStatus (blockUserApply fs a b) b a = checkFriendshipStatus fs b a ∧
    (blockUserApply fs a b).filter (fun e => !(edgeKeyEq a b e)) =
      fs.filter (fun e => !(edgeKeyEq a b e)) ∧
    (a ≠ b → checkFriendshipStatus (blockUserApply fs a b) a b =
      some FriendStatus.blocked) := by
  by_cases hab : a = b
  · subst hab
    have : blockUserApply fs a a = fs := by simp [blockUserApply, blockUser]
    rw [this]
    exact ⟨rfl, rfl, fun h => absurd rfl h⟩
  · have hne : (a == b) = false := beq_eq_false_iff_ne.mpr hab
    by_cases hany : fs.any (edgeKeyEq a b) = true
    · have happ : blockUserApply fs a b =
          fs.map (fun e =>
            if edgeKeyEq a b e then { e with status := FriendStatus.blocked } else e) := by
        simp [blockUserApply, blockUser, hne, hany]
      rw [happ]
      refine ⟨?_, filter_map_block fs, fun _ => ?_⟩
      · unfold checkFriendshipStatus
        rw [@find?_map_block a b b a (fun hc => hab hc.2) fs]
      · unfold checkFriendshipStatus
        rcases List.any_eq_true.mp hany with ⟨e, he, hke⟩
        clear hany happ
        induction fs with
        | nil => cases he
        | cons h t ih =>
          by_cases hk : edgeKeyEq a b h = true
          · have hk2 : edgeKeyEq a b { h with status := FriendStatus.blocked } = true := hk
            simp [List.find?_cons, hk, hk2]
          · have hk' : edgeKeyEq a b h = false := by
              cases hv : edgeKeyEq a b h
              · rfl
              · exact absurd hv hk
            rcases List.mem_cons.mp he with rfl | he'
            · exact absurd hke hk
            · simp only [List.map_cons, hk', Bool.false_eq_true, if_false, List.find?_cons]
              exact ih he'
    · have hanyf : fs.any (edgeKeyEq a b) = false := by
        cases hv : fs.any (edgeKeyEq a b)
        · rfl
        · exact absurd hv hany
      have happ : blockUserApply fs a b = fs ++ [⟨a, b, FriendStatus.blocked⟩] := by
        simp [blockUserApply, blockUser, hne, hanyf]
      rw [happ]
      have hxf : edgeKeyEq b a (⟨a, b, FriendStatus.blocked⟩ : FriendEdge) = false :=
        edgeKeyEq_false_of_not fun hc => hab hc.1
      have hxa : edgeKeyEq a b (⟨a, b, FriendStatus.blocked⟩ : FriendEdge) = true := by
        simp [edgeKeyEq]
      refine ⟨?_, ?_, fun _ => ?_⟩
      · unfold checkFriendshipStatus
        rw [find?_append_single_false hxf]
      · rw [List.filter_append]
        simp [hxa]
      · unfold checkFriendshipStatus
        have hall : ∀ x ∈ fs, edgeKeyEq a b x = false := fun x hx =>
          Bool.eq_false_iff.mpr (List.any_eq_false.mp hanyf x hx)
        rw [find?_append_left_none hall]
        simp [List.find?, hxa]

/-- Witness for C8 at concrete inputs: blocking alice -> bob leaves the
accepted reverse row (bob, alice) readable unchanged. -/
theorem c8_blockUser_witness :
    uA ≠ uB ∧
    checkFriendshipStatus
      (blockUserApply [(⟨uB, uA, FriendStatus.accepted⟩ : FriendEdge)] uA uB) uA uB =
      some FriendStatus.blocked :=
  ⟨by decide,
    (c8_blockUser_upserts_only_forward [⟨uB, uA, FriendStatus.accepted⟩] uA uB).2.2
      (by decide)⟩

/-- The accept UPDATE predicate counts zero rows when no pending `(a,b)`
row exists. -/
theorem countP_accept_zero_no_pending {fs : List FriendEdge} {a b : String}
    (h : ∀ e ∈ fs, ¬(e.user_id = a ∧ e.friend_id = b ∧ e.status = FriendStatus.pending)) :
    fs.countP (fun e => edgeKeyEq a b e && (e.status == FriendStatus.pending)) = 0 := by
  rw [List.countP_eq_zero]
  intro e he
  simp only [edgeKeyEq, Bool.and_eq_true, beq_iff_eq]
  intro hc
  exact h e he ⟨hc.1.1, hc.1.2, hc.2⟩

/-- The accept UPDATE preserves every row key, as seen by `any`. -/
theorem any_key_map_accept {a b c d : String} :
    ∀ fs : List FriendEdge,
      ((fs.map (fun e =>
        if edgeKeyEq a b e && (e.status == FriendStatus.pending)
        then { e with status := FriendStatus.accepted } else e)).any (edgeKeyEq c d)) =
      fs.any (edgeKeyEq c d) := by
  intro fs
  induction fs with
  | nil => rfl
  | cons e t ih =>
    simp only [List.map_cons, List.any_cons]
    have hkey : edgeKeyEq c d (if edgeKeyEq a b e && (e.status == FriendStatus.pending)
        then { e with status := FriendStatus.accepted } else e) = edgeKeyEq c d e := by
      by_cases hc : (edgeKeyEq a b e && (e.status == FriendStatus.pending)) = true
      · rw [if_pos hc]; rfl
      · rw [if_neg hc]
    rw [hkey, ih]

/-- C4: `AcceptRequest(requester,accepter)` fails `NotFound` when no
`(requester,accepter,pending)` row exists (the error models the aborted
transaction: no state change), and when the update succeeds but the reverse
insert collides with an existing `(accepter,requester)` row under the
unique key, the call returns success with the committed update. -/
theorem c4_acceptRequest_notFound_and_idempotent (fs : List FriendEdge)
    (requester accepter : String) (hns : NoSelfStore fs) :
    ((∀ e ∈ fs, ¬(e.user_id = requester ∧ e.friend_id = accepter ∧
        e.status = FriendStatus.pending)) →
      AcceptRequest fs requester accepter = .error .notFound) ∧
    ((⟨requester, accepter, FriendStatus.pending⟩ : FriendEdge) ∈ fs →
      ¬ NoEdge fs accepter requester →
      AcceptRequest fs requester accepter =
        .ok (acceptFriendRequestUpdate fs requester accepter).1) := by
  constructor
  · intro h
    have hz := countP_accept_zero_no_pending h
    simp [AcceptRequest, acceptFriendRequestUpdate, hz]
  · intro hm hcol
    have hne : requester ≠ accepter := hns _ hm
    have hpos : fs.countP (fun e => edgeKeyEq requester accepter e &&
        (e.status == FriendStatus.pending)) ≠ 0 := by
      have : 0 < fs.countP (fun e => edgeKeyEq requester accepter e &&
          (e.status == FriendStatus.pending)) :=
        List.countP_pos_iff.mpr ⟨_, hm, by simp [edgeKeyEq]⟩
      omega
    have hupd0 : ((acceptFriendRequestUpdate fs requester accepter).2 == 0) = false := by
      unfold acceptFriendRequestUpdate
      exact beq_eq_false_iff_ne.mpr hpos
    have hany : ((acceptFriendRequestUpdate fs requester accepter).1.any
        (edgeKeyEq accepter requester)) = true := by
      unfold acceptFriendRequestUpdate
      rw [any_key_map_accept fs]
      exact any_edgeKeyEq_iff.mpr hcol
    have hba : (accepter == requester) = false :=
      beq_eq_false_iff_ne.mpr fun h => hne h.symm
    have hins : acceptFriendRequestInsert
        (acceptFriendRequestUpdate fs requester accepter).1 requester accepter =
        .error .uniqueViolation := by
      simp [acceptFriendRequestInsert, hba, hany]
    simp [AcceptRequest, hupd0, hins]

/-- Witness for C4 at concrete inputs: a pending `(alice,bob)` row next to a
stale `(bob,alice)` row makes the accept insert collide and the call still
succeed. -/
theorem c4_acceptRequest_witness :
    NoSelfStore c4fs ∧
    AcceptRequest c4fs uA uB = .ok (acceptFriendRequestUpdate c4fs uA uB).1 :=
  ⟨by decide,
    (c4_acceptRequest_notFound_and_idempotent c4fs uA uB (by decide)).2
      (by decide) (by decide)⟩

/-! ### Claim theorems on notifications -/

/-- C7: calling `Notify` twice with identical dedup key, the second call
within the window of the first, stores exactly one notification row: the
first call inserts, the second is a `DuplicateSuppressed` no-op. -/
theorem c7_notify_twice_dedup (ns : List Notification) (id1 id2 recipient actor : String)
    (t : NotifType) (refId refType : String) (hours t1 t2 : Int)
    (h0 : ns.countP (notifMatches recipient actor t refId) = 0)
    (hwin : t2 - t1 < hours * 3600) :
    (Notify ns id1 recipient actor t refId refType hours t1).1 = .created ∧
    (Notify (Notify ns id1 recipient actor t refId refType hours t1).2
      id2 recipient actor t refId refType hours t2).1 = .duplicateSuppressed ∧
    ((Notify (Notify ns id1 recipient actor t refId refType hours t1).2
      id2 recipient actor t refId refType hours t2).2).countP
        (notifMatches recipient actor t refId) = 1 := by
  have hall : ∀ n ∈ ns, notifMatches recipient actor t refId n = false := fun n hn =>
    Bool.eq_false_iff.mpr (List.countP_eq_zero.mp h0 n hn)
  have hchk1 : checkForDuplicateNotification ns recipient actor t refId hours t1 = false := by
    unfold checkForDuplicateNotification
    rw [List.any_eq_false]
    intro n hn
    simp [hall n hn]
  have hstep1 : Notify ns id1 recipient actor t refId refType hours t1 =
      (.created, ns ++ [⟨id1, recipient, actor, t, refId, refType, false, t1⟩]) := by
    simp [Notify, hchk1, createNotification]
  have hmatch_new : notifMatches recipient actor t refId
      (⟨id1, recipient, actor, t, refId, refType, false, t1⟩ : Notification) = true := by
    simp [notifMatches]
  have hchk2 : checkForDuplicateNotification
      (ns ++ [⟨id1, recipient, actor, t, refId, refType, false, t1⟩])
      recipient actor t refId hours t2 = true := by
    unfold checkForDuplicateNotification
    rw [List.any_eq_true]
    refine ⟨⟨id1, recipient, actor, t, refId, refType, false, t1⟩, by simp, ?_⟩
    rw [hmatch_new]
    simp only [Bool.true_and, decide_eq_true_eq]
    omega
  rw [hstep1]
  refine ⟨rfl, ?_, ?_⟩
  · simp [Notify, hchk2]
  · simp only [Notify, hchk2, if_true]
    rw [List.countP_append, h0]
    simp [hmatch_new]

/-- Witness for C7 at concrete inputs: empty store, window one hour, calls
ten seconds apart. -/
theorem c7_notify_twice_dedup_witness :
    ([] : List Notification).countP (notifMatches uA uB NotifType.like refP) = 0 ∧
    (Notify (Notify [] nid1 uA uB NotifType.like refP refP 1 0).2
      nid2 uA uB NotifType.like refP refP 1 10).1 = .duplicateSuppressed :=
  ⟨by decide,
    (c7_notify_twice_dedup [] nid1 nid2 uA uB NotifType.like refP refP 1 0 10
      (by decide) (by decide)).2.1⟩

/-! ### Claim theorems on feed assembly -/

/-- C5: every row of `GetUserFeed` comes from a stored post whose author is
an accepted friend of the requesting user (as read back by
`CheckFriendshipStatus`) and whose visibility is `public` or `friends` —
never `private`. -/
theorem c5_feed_only_accepted_nonprivate (db : DB) (uid : String) (lim off : Nat)
    (hnd : KeysNodup db.friendships) :
    ∀ r ∈ getUserFeed db uid lim off, ∃ p ∈ db.posts,
      r = feedRow db uid p ∧
      checkFriendshipStatus db.friendships uid p.owner_id = some FriendStatus.accepted ∧
      (p.visibility = Visibility.public ∨ p.visibility = Visibility.friends) ∧
      p.visibility ≠ Visibility.priv := by
  intro r hr
  unfold getUserFeed at hr
  rcases List.mem_map.mp hr with ⟨p, hp, hrp⟩
  have hp1 : p ∈ (db.posts.filter (postVisibleInFeed db uid)).insertionSort createdAtDesc :=
    List.mem_of_mem_drop (List.mem_of_mem_take hp)
  have hp2 : p ∈ db.posts.filter (postVisibleInFeed db uid) :=
    (List.mem_insertionSort createdAtDesc).mp hp1
  obtain ⟨hpost, hvis⟩ := List.mem_filter.mp hp2
  unfold postVisibleInFeed at hvis
  rw [Bool.and_eq_true, Bool.and_eq_true] at hvis
  obtain ⟨⟨hA, hB⟩, hC⟩ := hvis
  rcases List.any_eq_true.mp hA with ⟨f, hf, hfp⟩
  rw [Bool.and_eq_true, Bool.and_eq_true] at hfp
  obtain ⟨⟨hf1, hf2⟩, hf3⟩ := hfp
  rw [beq_iff_eq] at hf1 hf2 hf3
  have hstat : checkFriendshipStatus db.friendships uid p.owner_id =
      some FriendStatus.accepted := by
    have hs := checkFriendshipStatus_of_mem db.friendships f hf1 hf2 hnd hf
    rw [hf3] at hs
    exact hs
  have hv : p.visibility = Visibility.public ∨ p.visibility = Visibility.friends := by
    rw [Bool.or_eq_true, beq_iff_eq, beq_iff_eq] at hC
    exact hC
  exact ⟨p, hpost, hrp.symm, hstat, hv, by rcases hv with h | h <;> simp [h]⟩

/-- Witness for C5 at concrete inputs: carol's public post appears in
alice's feed over `feedDB`. -/
theorem c5_feed_witness :
    KeysNodup feedDB.friendships ∧
    feedRow feedDB uA ⟨"pb", uC, Visibility.public, 100⟩ ∈ getUserFeed feedDB uA 10 0 ∧
    (∃ p ∈ feedDB.posts,
      feedRow feedDB uA ⟨"pb", uC, Visibility.public, 100⟩ = feedRow feedDB uA p ∧
      checkFriendshipStatus feedDB.friendships uA p.owner_id =
        some FriendStatus.accepted ∧
      (p.visibility = Visibility.public ∨ p.visibility = Visibility.friends) ∧
      p.visibility ≠ Visibility.priv) :=
  ⟨by decide, by decide,
    c5_feed_only_accepted_nonprivate feedDB uA 10 0 (by decide) _ (by decide)⟩

/-- Counterexample to C6 as stated: over `feedDB` the feed holds three rows
with equal `created_at` in table order `pb, pc, pa`, which is sorted by
neither an ascending nor a descending id tie-break — `GetUserFeed` orders by
`created_at DESC` alone. -/
theorem c6_feed_ordering_counterexample :
    ¬ List.Sorted feedOrdIdAsc (getUserFeed feedDB uA 10 0) ∧
    ¬ List.Sorted feedOrdIdDesc (getUserFeed feedDB uA 10 0) ∧
    (getUserFeed feedDB uA 10 0).map FeedRow.id = ["pb", "pc", "pa"] := by decide

/-- C6 amended: the feed is sorted by `created_at` non-increasing; the SQL
specifies no id tie-break, ties keep store order, and repeated calls on a
fixed store return the same sequence because the query is a pure function
of the store. -/
theorem c6_feed_sorted_created_desc (db : DB) (uid : String) (lim off : Nat) :
    List.Sorted feedCreatedDesc (getUserFeed db uid lim off) := by
  unfold getUserFeed
  have h1 : List.Pairwise createdAtDesc
      ((db.posts.filter (postVisibleInFeed db uid)).insertionSort createdAtDesc) :=
    List.sorted_insertionSort createdAtDesc _
  have h2 := List.Pairwise.sublist (List.drop_sublist off _) h1
  have h3 := List.Pairwise.sublist (List.take_sublist lim _) h2
  exact List.Pairwise.map _ (fun _ _ h => h) h3

/-! ### Claim theorem on mutual friends -/

/-- C10: `GetMutualFriends` is symmetric in its two users — it returns the
very same list both ways — and a user row is returned exactly when it is
stored and its id lies in both accepted adjacency sets. -/
theorem c10_mutualFriends_symmetric (db : DB) (a b : String) :
    getMutualFriends db a b = getMutualFriends db b a ∧
    (∀ u : UserRow, u ∈ getMutualFriends db a b ↔
      (u ∈ db.users ∧
        (∃ f ∈ db.friendships, f.user_id = a ∧ f.friend_id = u.id ∧
          f.status = FriendStatus.accepted) ∧
        (∃ f ∈ db.friendships, f.user_id = b ∧ f.friend_id = u.id ∧
          f.status = FriendStatus.accepted))) := by
  constructor
  · unfold getMutualFriends
    congr 1
    apply List.filter_congr
    intro u _
    unfold mutualFriendIds
    rw [Bool.and_comm]
  · intro u
    unfold getMutualFriends
    rw [List.mem_insertionSort usernameLe, List.mem_filter]
    unfold mutualFriendIds
    simp only [Bool.and_eq_true, List.any_eq_true, beq_iff_eq, and_assoc]

/-- Witness for C1 at concrete inputs: the empty store, alice and bob. -/
theorem c1_sendRequest_then_acceptRequest_witness :
    uA ≠ uB ∧ NoEdge ([] : List FriendEdge) uA uB ∧ NoEdge ([] : List FriendEdge) uB uA ∧
    checkFriendshipStatus
      ((([] : List FriendEdge) ++ [⟨uA, uB, FriendStatus.accepted⟩]) ++
        [⟨uB, uA, FriendStatus.accepted⟩]) uB uA = some FriendStatus.accepted :=
  ⟨by decide, by decide, by decide,
    (c1_sendRequest_then_acceptRequest [] uA uB (by decide) (by decide) (by decide)).2.2.2.2.2⟩

end Brewd
